import Mathlib

/-!
Verification of the PDF Numbering Tool (`numbering_tool.py`).

The file shallowly embeds the pure content of the script:
* the per-page numbering loop of `process_pdf`,
* the batch loop of `main` (mode seeding, success/failure bookkeeping),
* the filename sort key `extract_prefix_sort_key` and the stable sort,
* the configuration parser `load_config`,
* the number formatter `format_number`,
* the file-selection logic of `find_all_pdfs_with_selection`,
* the decoration decisions of `create_number_overlay`.

External library behaviour (Python builtins `int`, `str.strip`, `str.lower`,
`str.isdigit`, `pathlib.Path.stem`, reportlab's `stringWidth`) is modelled
for the ASCII inputs the tool handles; reportlab text metrics are an oracle
parameter.  I/O (reading files, writing PDFs, logging, prompting) is
abstracted into explicit arguments and returned values.
-/

/-- Decimal value of a digit string, as Python `int` computes it on an
all-digit string (e.g. `int("007") = 7`). -/
def digitsToNat (cs : List Char) : Nat :=
  cs.foldl (fun n c => n * 10 + (c.toNat - 48)) 0

/-- Python `s.isdigit()` on ASCII strings: nonempty and all characters are
decimal digits. -/
def isDigitStr (s : String) : Bool :=
  !s.data.isEmpty && s.data.all Char.isDigit

/-- Python `s.lower()` on ASCII strings. -/
def lowerStr (s : String) : String :=
  String.mk (s.data.map Char.toLower)

/-- Python `s.strip()` on ASCII strings: drop whitespace from both ends. -/
def pyStrip (s : String) : String :=
  String.mk (((s.data.dropWhile Char.isWhitespace).reverse.dropWhile Char.isWhitespace).reverse)

/-- Python `s.upper()` on ASCII strings. -/
def upperStr (s : String) : String :=
  String.mk (s.data.map Char.toUpper)

/-- Python `int(s)` on an already-stripped ASCII string: an optional sign
followed by at least one decimal digit; anything else raises (here: `none`). -/
def pythonInt? (s : String) : Option Int :=
  match s.data with
  | [] => none
  | '+' :: rest =>
      if !rest.isEmpty && rest.all Char.isDigit then some (digitsToNat rest) else none
  | '-' :: rest =>
      if !rest.isEmpty && rest.all Char.isDigit then some (-(digitsToNat rest : Int)) else none
  | cs =>
      if cs.all Char.isDigit then some (digitsToNat cs) else none

/-!  ## Filename sort key (`extract_prefix_sort_key`, lines 143-156)  -/

/-- `name.split("_")[0].split("-")[0]`: the substring of the stem before the
first `_` or `-` (the whole stem when neither occurs). -/
def prefixPart (stem : String) : String :=
  String.mk ((stem.data.takeWhile (fun c => c ≠ '_')).takeWhile (fun c => c ≠ '-'))

/-- The sort key returned by `extract_prefix_sort_key`: Python tuples
`(0, int)`, `(1, str)`, `(2, str)`, whose first components make the three
ranks incomparable in value. -/
inductive SortKey where
  | num (n : Nat)
  | alpha (s : String)
  | other (s : String)
deriving DecidableEq, Repr

/-- Python `prefix and prefix[0].isalpha()` (line 153): nonempty with an
alphabetic first character. -/
def leadsAlpha (s : String) : Bool :=
  match s.data with
  | c :: _ => c.isAlpha
  | [] => false

/-- `extract_prefix_sort_key` (lines 143-156), taking the filename stem:
rank 0 for a purely numeric first segment (ordered by its integer value),
rank 1 for an alphabetic-leading segment (ordered on its lowercase form),
rank 2 otherwise (ordered on the lowercase form, `""` for an empty segment;
the code's `prefix.lower() if prefix else ""` equals `lowerStr` in both
cases). -/
def extract_prefix_sort_key (stem : String) : SortKey :=
  let p := prefixPart stem
  if isDigitStr p then SortKey.num (digitsToNat p.data)
  else if leadsAlpha p then SortKey.alpha (lowerStr p)
  else SortKey.other (lowerStr p)

/-- Lexicographic `≤` on character lists, as Python compares strings
(by code point). -/
def strLe : List Char → List Char → Bool
  | [], _ => true
  | _ :: _, [] => false
  | c :: cs, d :: ds => if c < d then true else if d < c then false else strLe cs ds

/-- Python `≤` on the tuple keys: ranks compare first, values only within a
rank (Python never compares an `int` with a `str` here because equal first
components force equal ranks). -/
def keyLe : SortKey → SortKey → Bool
  | SortKey.num m, SortKey.num n => m ≤ n
  | SortKey.num _, SortKey.alpha _ => true
  | SortKey.num _, SortKey.other _ => true
  | SortKey.alpha _, SortKey.num _ => false
  | SortKey.alpha s, SortKey.alpha t => strLe s.data t.data
  | SortKey.alpha _, SortKey.other _ => true
  | SortKey.other _, SortKey.num _ => false
  | SortKey.other _, SortKey.alpha _ => false
  | SortKey.other s, SortKey.other t => strLe s.data t.data

/-- `pathlib.Path(name).stem`: drop the final `.suffix` from the last path
component; names with no dot, a leading dot only, or a trailing dot are
returned whole. -/
def fileStem (name : String) : String :=
  let cs := name.data
  if cs.contains '.' then
    let tailLen := (cs.reverse.takeWhile (fun c => c ≠ '.')).length
    let i := cs.length - 1 - tailLen
    if 0 < i ∧ 0 < tailLen then String.mk (cs.take i) else name
  else name

/-- Stable insertion of a filename into a list already sorted by
`extract_prefix_sort_key` of the stem: placed before the first strictly
greater key, after all equal keys. -/
def insertByKey (x : String) : List String → List String
  | [] => [x]
  | y :: ys =>
      if keyLe (extract_prefix_sort_key (fileStem x)) (extract_prefix_sort_key (fileStem y)) then
        x :: y :: ys
      else y :: insertByKey x ys

/-- `sorted(pdf_files, key=extract_prefix_sort_key)` (line 184): Python's
`sorted` is a stable sort under the key; modelled as a stable insertion
sort, which produces the same (unique) stable result. -/
def sortPdfs (files : List String) : List String :=
  files.foldr insertByKey []

/-!  ## Number formatting (`format_number`, lines 241-242)  -/

/-- Python `s.zfill(width)`: return `s` unchanged when already at least
`width` characters, otherwise left-pad with `'0'`.  (Python's special
handling of a leading sign never triggers: inputs are `str(n)` for
nonnegative `n`.) -/
def zfill (s : String) (width : Int) : String :=
  if width ≤ (s.length : Int) then s
  else String.mk (List.replicate (width - s.length).toNat '0' ++ s.data)

/-- `format_number(number, digits) = str(number).zfill(digits)`
(lines 241-242). -/
def format_number (number : Nat) (digits : Int) : String :=
  zfill (toString number) digits

/-!  ## Configuration loading (`load_config`, lines 87-137)  -/

/-- The loaded configuration.  In the script every value is an `int`
(`DRAW_BOX`/`DRAW_CIRCLE` are stored as `1`/`0` and used as truth values);
the two flags are modelled as the booleans they denote. -/
structure Config where
  x1 : Int
  y1 : Int
  x2 : Int
  y2 : Int
  digits : Int
  pad : Int
  drawBox : Bool
  drawCircle : Bool
deriving DecidableEq, Repr

/-- The `config` dict while the file is being read: keys not yet seen are
absent. -/
structure RawConfig where
  x1 : Option Int
  y1 : Option Int
  x2 : Option Int
  y2 : Option Int
  digits : Option Int
  pad : Option Int
  drawBox : Option Bool
  drawCircle : Option Bool
deriving DecidableEq, Repr

/-- The empty dict `config = {}`. -/
def RawConfig.empty : RawConfig := ⟨none, none, none, none, none, none, none, none⟩

/-- One line of `coords.env`, reduced to its key/value pair as lines 109-117
do: strip, skip blank and `#`-comment lines, require an `=`, then
`key, value = line.split("=", 1)` with both parts stripped.  `none` means
the line is skipped. -/
def lineKV (rawLine : String) : Option (String × String) :=
  let line := pyStrip rawLine
  match line.data with
  | [] => none
  | c :: _ =>
      if c = '#' then none
      else if line.data.contains '=' then
        some (pyStrip (String.mk (line.data.takeWhile (fun a => a ≠ '='))),
              pyStrip (String.mk ((line.data.dropWhile (fun a => a ≠ '=')).tail)))
      else none

/-- Lines 119-126: integer keys take `int(value)` with `0` on a parse
failure; `DRAW_BOX`/`DRAW_CIRCLE` take `value == "1"`; other keys are
ignored. -/
def processLine (cfg : RawConfig) (rawLine : String) : RawConfig :=
  match lineKV rawLine with
  | none => cfg
  | some (key, value) =>
      if key = "X1" then { cfg with x1 := some ((pythonInt? value).getD 0) }
      else if key = "Y1" then { cfg with y1 := some ((pythonInt? value).getD 0) }
      else if key = "X2" then { cfg with x2 := some ((pythonInt? value).getD 0) }
      else if key = "Y2" then { cfg with y2 := some ((pythonInt? value).getD 0) }
      else if key = "DIGITS" then { cfg with digits := some ((pythonInt? value).getD 0) }
      else if key = "PAD" then { cfg with pad := some ((pythonInt? value).getD 0) }
      else if key = "DRAW_BOX" then { cfg with drawBox := some (value = "1") }
      else if key = "DRAW_CIRCLE" then { cfg with drawCircle := some (value = "1") }
      else cfg

/-- Lines 128-131: every required key still missing defaults to `0`
(`false` for the flags). -/
def finalizeConfig (cfg : RawConfig) : Config :=
  ⟨cfg.x1.getD 0, cfg.y1.getD 0, cfg.x2.getD 0, cfg.y2.getD 0,
   cfg.digits.getD 0, cfg.pad.getD 0, cfg.drawBox.getD false, cfg.drawCircle.getD false⟩

/-- `load_config` (lines 87-137) on the list of lines of an existing
`coords.env` (a missing file exits beforehand and is out of this model). -/
def load_config (lines : List String) : Config :=
  finalizeConfig (lines.foldl processLine RawConfig.empty)

/-!  ## File selection (`find_all_pdfs_with_selection`, lines 204-235)  -/

/-- The selection step of `find_all_pdfs_with_selection` on the sorted file
list and the raw prompt answer (the code applies `.strip().upper()` to the
answer): `ALL` or empty selects everything; an in-range 1-based index
selects that single file; any other answer falls back to everything with a
warning.  The in-range test `1 <= num <= len(pdf_files)` and the index
`pdf_files[num - 1]` are combined into one guarded lookup. -/
def selectFiles (files : List String) (rawChoice : String) : List String :=
  let choice := upperStr (pyStrip rawChoice)
  if choice = "ALL" ∨ choice = "" then files
  else
    match pythonInt? choice with
    | none => files
    | some num =>
        if 1 ≤ num then
          match files.get? (num.toNat - 1) with
          | some f => [f]
          | none => files
        else files

/-!  ## Overlay rendering (`create_number_overlay`, lines 245-282)  -/

/-- The drawing operations issued to the reportlab canvas, in order. -/
inductive DrawOp where
  | rect (x y w h : ℚ)
  | circle (cx cy r : ℚ)
  | text (x y : ℚ) (s : String)
deriving DecidableEq, Repr

/-- The overlay page: its physical size and the recorded operations. -/
structure Overlay where
  pageWidth : ℚ
  pageHeight : ℚ
  ops : List DrawOp
deriving DecidableEq, Repr

/-- One label of `create_number_overlay` (the two blocks at lines 254-265
and 267-278 are identical up to the coordinates): optional decoration
first — a rect when `DRAW_BOX`, else a circle when `DRAW_CIRCLE`, else
nothing — then the text.  `w` is the measured string width, `h` the font
size 12. -/
def labelOps (config : Config) (x y w h : ℚ) (t : String) : List DrawOp :=
  (if config.drawBox then
    [DrawOp.rect (x - config.pad) (y - config.pad) (w + config.pad * 2) (h + config.pad * 2)]
  else if config.drawCircle then
    [DrawOp.circle (x + w / 2) (y + h / 2) (max w h / 2 + config.pad)]
  else []) ++ [DrawOp.text x y t]

/-- `create_number_overlay` (lines 245-282).  `sw` is the
`stringWidth(·, "Helvetica-Bold", 12)` metric of the rendering backend,
taken as an oracle. -/
def create_number_overlay (number1 number2 : Nat) (config : Config)
    (pageWidth pageHeight : ℚ) (sw : String → ℚ) : Overlay :=
  let fontSize : ℚ := 12
  let h := fontSize
  let t1 := format_number number1 config.digits
  let t2 := format_number number2 config.digits
  ⟨pageWidth, pageHeight,
    labelOps config config.x1 config.y1 (sw t1) h t1 ++
    labelOps config config.x2 config.y2 (sw t2) h t2⟩

/-- Number of rectangles among the operations. -/
def countRects (ops : List DrawOp) : Nat :=
  ops.countP fun op => match op with | DrawOp.rect _ _ _ _ => true | _ => false

/-- Number of circles among the operations. -/
def countCircles (ops : List DrawOp) : Nat :=
  ops.countP fun op => match op with | DrawOp.circle _ _ _ => true | _ => false

/-!  ## Per-page numbering (`process_pdf`, lines 288-343)  -/

/-- `process_pdf` (lines 288-343), abstracted over page geometry: each page
is represented by a flag saying whether its overlay creation and merge
succeed (the `try` block at lines 321-332 re-raises on a failure, and the
file is only written after the loop).  On success the function returns the
per-page label pairs, in page order, together with the final
`current_number` (line 343, the next start value); a page failure aborts
the document with no output. -/
def process_pdf (start_number : Nat) : List Bool → Option (List (Nat × Nat) × Nat)
  | [] => some ([], start_number)
  | pageOk :: rest =>
      if pageOk then
        match process_pdf (start_number + 2) rest with
        | some (labels, next) => some ((start_number, start_number + 1) :: labels, next)
        | none => none
      else none

/-!  ## Batch driver (`main`, lines 407-436)  -/

/-- The numbering mode chosen at lines 364-386: `"1"` reseeds every file
from the batch start, `"2"` numbers continuously. -/
inductive Mode where
  | reseed
  | continuous
deriving DecidableEq, Repr

/-- Lines 419-422: the start value for one document. -/
def seedValue (mode : Mode) (baseStart nextNumber : Nat) : Nat :=
  match mode with
  | Mode.reseed => baseStart
  | Mode.continuous => nextNumber

/-- Outcome of the batch loop: per-document result (`some labels` for a
written output file, `none` for a failed document) plus the success and
failure tallies of lines 413-436. -/
structure BatchResult where
  outputs : List (Option (List (Nat × Nat)))
  successCount : Nat
  failCount : Nat
deriving DecidableEq, Repr

/-- The loop of `main` at lines 416-436: for each document, seed the
counter from the mode, run `process_pdf`, and on success record the output
and the returned next start; on failure count it and continue with
`next_number` unchanged. -/
def runBatchAux (mode : Mode) (baseStart : Nat) : Nat → List (List Bool) → BatchResult
  | _, [] => ⟨[], 0, 0⟩
  | nextNumber, d :: ds =>
      match process_pdf (seedValue mode baseStart nextNumber) d with
      | some (labels, next) =>
          let rest := runBatchAux mode baseStart next ds
          ⟨some labels :: rest.outputs, rest.successCount + 1, rest.failCount⟩
      | none =>
          let rest := runBatchAux mode baseStart nextNumber ds
          ⟨none :: rest.outputs, rest.successCount, rest.failCount + 1⟩

/-- The whole batch: `next_number` starts at `base_start` (line 408). -/
def runBatch (mode : Mode) (baseStart : Nat) (docs : List (List Bool)) : BatchResult :=
  runBatchAux mode baseStart baseStart docs

/-- The start value each document is seeded with, read off the same loop
(the value of `start_number` at line 428 in each iteration). -/
def docStarts (mode : Mode) (baseStart : Nat) : Nat → List (List Bool) → List Nat
  | _, [] => []
  | nextNumber, d :: ds =>
      let start := seedValue mode baseStart nextNumber
      let next :=
        match process_pdf start d with
        | some (_, nxt) => nxt
        | none => nextNumber
      start :: docStarts mode baseStart next ds

lemma process_pdf_eq_none_iff (s : Nat) (d : List Bool) :
    process_pdf s d = none ↔ false ∈ d := by
  induction d generalizing s with
  | nil => simp [process_pdf]
  | cons b rest ih =>
      cases b with
      | false => simp [process_pdf]
      | true =>
          cases h : process_pdf (s + 2) rest with
          | none =>
              simp [process_pdf, h]
              exact (ih (s + 2)).mp h
          | some p =>
              simp [process_pdf, h]
              intro hmem
              rw [← ih (s + 2)] at hmem
              rw [h] at hmem
              exact Option.noConfusion hmem

lemma runBatchAux_outputs_length (m : Mode) (b : Nat) :
    ∀ (next : Nat) (docs : List (List Bool)),
      (runBatchAux m b next docs).outputs.length = docs.length := by
  intro next docs
  induction docs generalizing next with
  | nil => simp [runBatchAux]
  | cons d ds ih =>
      cases h : process_pdf (seedValue m b next) d with
      | none => simp [runBatchAux, h, ih]
      | some p => simp [runBatchAux, h, ih]

lemma runBatchAux_counts (m : Mode) (b : Nat) :
    ∀ (next : Nat) (docs : List (List Bool)),
      (runBatchAux m b next docs).successCount + (runBatchAux m b next docs).failCount
        = docs.length := by
  intro next docs
  induction docs generalizing next with
  | nil => simp [runBatchAux]
  | cons d ds ih =>
      cases h : process_pdf (seedValue m b next) d with
      | none =>
          simp only [runBatchAux, h, List.length_cons]
          have := ih next
          omega
      | some p =>
          obtain ⟨labels, nxt⟩ := p
          simp only [runBatchAux, h, List.length_cons]
          have := ih nxt
          omega

lemma runBatchAux_outputs_eq (m : Mode) (b : Nat) :
    ∀ (next : Nat) (docs : List (List Bool)),
      (runBatchAux m b next docs).outputs
        = List.zipWith (fun s d => (process_pdf s d).map Prod.fst)
            (docStarts m b next docs) docs := by
  intro next docs
  induction docs generalizing next with
  | nil => simp [runBatchAux, docStarts]
  | cons d ds ih =>
      cases h : process_pdf (seedValue m b next) d with
      | none => simp [runBatchAux, docStarts, h, ih]
      | some p =>
          obtain ⟨labels, nxt⟩ := p
          simp [runBatchAux, docStarts, h, ih]

lemma docStarts_reseed (b : Nat) :
    ∀ (next : Nat) (docs : List (List Bool)),
      docStarts Mode.reseed b next docs = List.replicate docs.length b := by
  intro next docs
  induction docs generalizing next with
  | nil => simp [docStarts]
  | cons d ds ih =>
      cases h : process_pdf (seedValue Mode.reseed b next) d with
      | none => simp [docStarts, seedValue, h, ih, List.replicate_succ]
      | some p => simp [docStarts, seedValue, h, ih, List.replicate_succ]

lemma runBatchAux_outputs_take (m : Mode) (b : Nat) :
    ∀ (next : Nat) (ds es : List (List Bool)),
      ((runBatchAux m b next (ds ++ es)).outputs).take ds.length
        = (runBatchAux m b next ds).outputs := by
  intro next ds es
  induction ds generalizing next with
  | nil => simp [runBatchAux]
  | cons d ds ih =>
      cases h : process_pdf (seedValue m b next) d with
      | none => simp [runBatchAux, h, ih]
      | some p =>
          obtain ⟨labels, nxt⟩ := p
          simp [runBatchAux, h, ih]

lemma runBatchAux_failed_iff (m : Mode) (b : Nat) :
    ∀ (next : Nat) (docs : List (List Bool)) (k : Nat) (d : List Bool),
      docs[k]? = some d →
      ((runBatchAux m b next docs).outputs[k]? = some none ↔ false ∈ d) := by
  intro next docs
  induction docs generalizing next with
  | nil => intro k d hk; simp at hk
  | cons d0 ds ih =>
      intro k d hk
      cases k with
      | zero =>
          simp at hk
          subst hk
          cases h : process_pdf (seedValue m b next) d0 with
          | none =>
              simp [runBatchAux, h]
              exact (process_pdf_eq_none_iff _ _).mp h
          | some p =>
              simp [runBatchAux, h]
              intro hmem
              rw [← process_pdf_eq_none_iff (seedValue m b next) d0] at hmem
              rw [h] at hmem
              exact Option.noConfusion hmem
      | succ k' =>
          simp only [List.getElem?_cons_succ] at hk
          cases h : process_pdf (seedValue m b next) d0 with
          | none =>
              simp only [runBatchAux, h, List.getElem?_cons_succ]
              exact ih next k' d hk
          | some p =>
              obtain ⟨labels, nxt⟩ := p
              simp only [runBatchAux, h, List.getElem?_cons_succ]
              exact ih nxt k' d hk


lemma docStarts_continuous_failed (b : Nat) :
    ∀ (next : Nat) (docs : List (List Bool)) (k : Nat) (d : List Bool),
      docs[k]? = some d → false ∈ d → k + 1 < docs.length →
      (docStarts Mode.continuous b next docs)[k + 1]?
        = (docStarts Mode.continuous b next docs)[k]? := by
  intro next docs
  induction docs generalizing next with
  | nil => intro k d hk _ _; simp at hk
  | cons d0 ds ih =>
      intro k d hk hf hlt
      cases k with
      | zero =>
          simp at hk
          subst hk
          have h : process_pdf next d0 = none := (process_pdf_eq_none_iff _ _).mpr hf
          cases ds with
          | nil => simp at hlt
          | cons d1 ds' => simp [docStarts, seedValue, h]
      | succ k' =>
          simp only [List.getElem?_cons_succ] at hk
          simp only [List.length_cons] at hlt
          simp only [docStarts, seedValue, List.getElem?_cons_succ]
          cases h : process_pdf next d0 with
          | none =>
              simp only [h]
              exact ih next k' d hk hf (by omega)
          | some p =>
              obtain ⟨labels, nxt⟩ := p
              simp only [h]
              exact ih nxt k' d hk hf (by omega)

lemma process_pdf_replicate (n : Nat) :
    ∀ current : Nat,
      process_pdf current (List.replicate n true)
        = some (((List.range n).map fun i => (current + 2 * i, current + 2 * i + 1)),
                current + 2 * n) := by
  induction n with
  | zero => intro current; simp [process_pdf]
  | succ n ih =>
      intro current
      rw [List.replicate_succ]
      simp only [process_pdf, if_true, ih (current + 2)]
      rw [List.range_succ_eq_map]
      simp only [List.map_cons, List.map_map, Option.some.injEq, Prod.mk.injEq,
        List.cons.injEq]
      refine ⟨⟨by simp, ?_⟩, by ring⟩
      apply List.map_congr_left
      intro i _
      simp only [Function.comp_apply, Prod.mk.injEq]
      omega

lemma selectFiles_all (files : List String) (raw : String)
    (h : upperStr (pyStrip raw) = "ALL" ∨ upperStr (pyStrip raw) = "") :
    selectFiles files raw = files := by
  simp only [selectFiles]
  rw [if_pos h]

lemma selectFiles_index (files : List String) (raw : String) (n : Int)
    (h : pythonInt? (upperStr (pyStrip raw)) = some n) (h1 : 1 ≤ n)
    (h2 : n ≤ (files.length : Int)) :
    ∃ f, files.get? (n.toNat - 1) = some f ∧ selectFiles files raw = [f] := by
  have hno : ¬(upperStr (pyStrip raw) = "ALL" ∨ upperStr (pyStrip raw) = "") := by
    rintro (he | he) <;> rw [he] at h
    · rw [show pythonInt? "ALL" = none from by decide] at h
      exact Option.noConfusion h
    · rw [show pythonInt? "" = none from by decide] at h
      exact Option.noConfusion h
  have hidx : n.toNat - 1 < files.length := by omega
  obtain ⟨f, hf⟩ : ∃ f, files.get? (n.toNat - 1) = some f := by
    rw [List.get?_eq_get hidx]
    exact ⟨_, rfl⟩
  refine ⟨f, hf, ?_⟩
  simp only [selectFiles]
  rw [if_neg hno, h]
  simp only [if_pos h1, hf]

lemma selectFiles_shape (files : List String) (raw : String) :
    selectFiles files raw = files ∨ ∃ f, f ∈ files ∧ selectFiles files raw = [f] := by
  simp only [selectFiles]
  split
  · left; rfl
  · split
    · left; rfl
    · split
      · split
        · rename_i f h4
          right
          exact ⟨f, List.get?_mem h4, rfl⟩
        · left; rfl
      · left; rfl

lemma processLine_of_lineKV_none (l : String) (h : lineKV l = none) (c : RawConfig) :
    processLine c l = c := by
  simp [processLine, h]

lemma processLine_of_unknown_key (l k v : String) (h : lineKV l = some (k, v))
    (hk : k ∉ (["X1", "Y1", "X2", "Y2", "DIGITS", "PAD", "DRAW_BOX", "DRAW_CIRCLE"] : List String))
    (c : RawConfig) : processLine c l = c := by
  simp only [List.mem_cons, List.mem_singleton, not_or] at hk
  obtain ⟨e1, e2, e3, e4, e5, e6, e7, e8⟩ := hk
  simp [processLine, h, e1, e2, e3, e4, e5, e6, e7, e8]

lemma load_config_ignores (pre post : List String) (l : String)
    (h : ∀ c, processLine c l = c) :
    load_config (pre ++ l :: post) = load_config (pre ++ post) := by
  simp only [load_config, List.foldl_append, List.foldl_cons, h]

/-- Claim C1: for every starting counter and page count, `process_pdf` on a
document all of whose pages succeed stamps exactly `page_count` label pairs
in page order, the pair of the `i`-th page (0-based) being
`(current + 2*i, current + 2*i + 1)` — so `num2 = num1 + 1` and consecutive
pages differ by 2 in `num1` — and returns `current + 2*page_count` as the
next start (zero pages give the empty list and `next_start = current`). -/
theorem process_pdf_advance (current page_count : Nat) :
    process_pdf current (List.replicate page_count true)
      = some (((List.range page_count).map fun i => (current + 2 * i, current + 2 * i + 1)),
              current + 2 * page_count) :=
  process_pdf_replicate page_count current

/-- Claim C2: the two numbering modes differ only in the value seeding each
document: every document's output labels come from `process_pdf` applied to
that document's seed, reseed mode seeds every document with the batch start
value, and on documents of 2 and 1 pages with batch start 1, reseed mode
yields (1,2)(3,4) then (1,2) while continuous mode yields (1,2)(3,4) then
(5,6). -/
theorem mode_seeding :
    (∀ (m : Mode) (b : Nat) (docs : List (List Bool)),
        (runBatch m b docs).outputs
          = List.zipWith (fun s d => (process_pdf s d).map Prod.fst)
              (docStarts m b b docs) docs) ∧
    (∀ (b next : Nat) (docs : List (List Bool)),
        docStarts Mode.reseed b next docs = List.replicate docs.length b) ∧
    (runBatch Mode.reseed 1 [[true, true], [true]]).outputs
      = [some [(1, 2), (3, 4)], some [(1, 2)]] ∧
    (runBatch Mode.continuous 1 [[true, true], [true]]).outputs
      = [some [(1, 2), (3, 4)], some [(5, 6)]] :=
  ⟨fun m b docs => runBatchAux_outputs_eq m b b docs,
   fun b next docs => docStarts_reseed b next docs,
   by decide, by decide⟩

/-- Claim C3: a page failure is isolated at document granularity: the batch
always visits every document (one output slot per document), successes and
failures tally to the document count, a document's slot is a failure
exactly when one of its pages fails, a failing suffix never disturbs the
outputs of the documents before it, and in the concrete 3-document batch
where only D2 fails, D1 and D3 succeed and the tally is 2 successes and 1
failure. -/
theorem batch_failure_isolation :
    (∀ (m : Mode) (b : Nat) (docs : List (List Bool)),
        (runBatch m b docs).outputs.length = docs.length) ∧
    (∀ (m : Mode) (b : Nat) (docs : List (List Bool)),
        (runBatch m b docs).successCount + (runBatch m b docs).failCount = docs.length) ∧
    (∀ (m : Mode) (b : Nat) (docs : List (List Bool)) (k : Nat) (d : List Bool),
        docs[k]? = some d →
        ((runBatch m b docs).outputs[k]? = some none ↔ false ∈ d)) ∧
    (∀ (m : Mode) (b : Nat) (ds es : List (List Bool)),
        ((runBatch m b (ds ++ es)).outputs).take ds.length = (runBatch m b ds).outputs) ∧
    runBatch Mode.reseed 1 [[true], [false], [true]]
      = ⟨[some [(1, 2)], none, some [(1, 2)]], 2, 1⟩ :=
  ⟨fun m b docs => runBatchAux_outputs_length m b b docs,
   fun m b docs => runBatchAux_counts m b b docs,
   fun m b docs k d hk => runBatchAux_failed_iff m b b docs k d hk,
   fun m b ds es => runBatchAux_outputs_take m b b ds es,
   by decide⟩

/-- Witness for C3: in the 3-document batch whose middle document fails,
slot 1 of the outputs records a failure. -/
theorem batch_failure_isolation_witness :
    (runBatch Mode.reseed 1 [[true], [false], [true]]).outputs[1]? = some none :=
  (batch_failure_isolation.2.2.1 Mode.reseed 1 [[true], [false], [true]] 1 [false]
    (by decide)).mpr (by decide)

/-- Claim C4: the sort key ranks a purely numeric first segment 0 (valued
by its integer), an alphabetic-leading segment 1 (valued by its lowercase
form), anything else 2 (valued by the lowercase form, empty for an empty
segment), and the four example files order as numeric prefixes ascending,
then alphabetic ones case-insensitively, then the rest. -/
theorem sort_key_ranks :
    (∀ stem : String, isDigitStr (prefixPart stem) = true →
        extract_prefix_sort_key stem = SortKey.num (digitsToNat (prefixPart stem).data)) ∧
    (∀ stem : String, isDigitStr (prefixPart stem) = false →
        leadsAlpha (prefixPart stem) = true →
        extract_prefix_sort_key stem = SortKey.alpha (lowerStr (prefixPart stem))) ∧
    (∀ stem : String, isDigitStr (prefixPart stem) = false →
        leadsAlpha (prefixPart stem) = false →
        extract_prefix_sort_key stem = SortKey.other (lowerStr (prefixPart stem))) ∧
    sortPdfs ["20251101_a.pdf", "B_report.pdf", "20251031.pdf", "misc.pdf"]
      = ["20251031.pdf", "20251101_a.pdf", "B_report.pdf", "misc.pdf"] :=
  ⟨fun stem h => by simp [extract_prefix_sort_key, h],
   fun stem h1 h2 => by simp [extract_prefix_sort_key, h1, h2],
   fun stem h1 h2 => by simp [extract_prefix_sort_key, h1, h2],
   by decide⟩

/-- Witness for C4: the three rank rules evaluated on the example stems. -/
theorem sort_key_ranks_witness :
    extract_prefix_sort_key "20251031" = SortKey.num 20251031 ∧
    extract_prefix_sort_key "B_report" = SortKey.alpha "b" ∧
    extract_prefix_sort_key "_misc" = SortKey.other "" :=
  ⟨(sort_key_ranks.1 "20251031" (by decide)).trans (by decide),
   (sort_key_ranks.2.1 "B_report" (by decide) (by decide)).trans (by decide),
   (sort_key_ranks.2.2.1 "_misc" (by decide) (by decide)).trans (by decide)⟩

/-- Claim C10: the sort key is not injective: any two stems whose first
segments are purely numeric with the same integer value get the same key,
e.g. the distinct names `007_x` and `7-y` both map to rank 0 value 7. -/
theorem sort_key_collision :
    (∀ s t : String, isDigitStr (prefixPart s) = true → isDigitStr (prefixPart t) = true →
        digitsToNat (prefixPart s).data = digitsToNat (prefixPart t).data →
        extract_prefix_sort_key s = extract_prefix_sort_key t) ∧
    extract_prefix_sort_key "007_x" = SortKey.num 7 ∧
    extract_prefix_sort_key "7-y" = SortKey.num 7 ∧
    "007_x" ≠ "7-y" :=
  ⟨fun s t h1 h2 h3 => by simp [extract_prefix_sort_key, h1, h2, h3],
   by decide, by decide, by decide⟩

/-- Witness for C10: the general collision rule applied to `007_x`/`7-y`. -/
theorem sort_key_collision_witness :
    extract_prefix_sort_key "007_x" = extract_prefix_sort_key "7-y" :=
  sort_key_collision.1 "007_x" "7-y" (by decide) (by decide) (by decide)

/-- Claim C6: `format_number` zero-pads the decimal representation to the
requested width and never truncates: the result is always the padding
needed (possibly none) followed by the full decimal string, and
`format_number 7 4 = "0007"`, `format_number 12345 4 = "12345"`. -/
theorem format_number_pads :
    format_number 7 4 = "0007" ∧
    format_number 12345 4 = "12345" ∧
    (∀ (n : Nat) (d : Int),
        format_number n d
          = String.mk (List.replicate (d - ((toString n).length : Int)).toNat '0'
              ++ (toString n).data)) :=
  ⟨by decide, by decide, fun n d => by
    unfold format_number zfill
    split
    · rename_i h
      have h0 : (d - ((toString n).length : Int)).toNat = 0 := by omega
      rw [h0]
      simp
    · rfl⟩

/-- Claim C5: configuration loading defaults every recognized key: the
empty file yields the all-zero/false configuration; blank, comment and
key-less lines as well as unknown-key lines are ignored wherever they
occur; an unparseable integer value and a flag value other than `"1"`
produce `0` and `false`, while value `"1"` sets a flag to `true`. -/
theorem load_config_defaulting :
    load_config [] = ⟨0, 0, 0, 0, 0, 0, false, false⟩ ∧
    (∀ (pre post : List String) (l : String), lineKV l = none →
        load_config (pre ++ l :: post) = load_config (pre ++ post)) ∧
    (∀ (pre post : List String) (l k v : String), lineKV l = some (k, v) →
        k ∉ (["X1", "Y1", "X2", "Y2", "DIGITS", "PAD", "DRAW_BOX", "DRAW_CIRCLE"] :
              List String) →
        load_config (pre ++ l :: post) = load_config (pre ++ post)) ∧
    load_config ["DIGITS=abc", "DRAW_BOX=yes", "FOO=1", "# comment", "   "]
      = ⟨0, 0, 0, 0, 0, 0, false, false⟩ ∧
    load_config ["DRAW_BOX=1", " DIGITS = 3 "] = ⟨0, 0, 0, 0, 3, 0, true, false⟩ :=
  ⟨by decide,
   fun pre post l h => load_config_ignores pre post l (processLine_of_lineKV_none l h),
   fun pre post l k v h hk =>
     load_config_ignores pre post l (processLine_of_unknown_key l k v h hk),
   by decide, by decide⟩

/-- Witness for C5: a comment line inserted between real lines is ignored. -/
theorem load_config_defaulting_witness :
    load_config (["X1=5"] ++ "# note" :: ["Y1=6"]) = load_config (["X1=5"] ++ ["Y1=6"]) :=
  load_config_defaulting.2.1 ["X1=5"] ["Y1=6"] "# note" (by decide)

lemma selectFiles_nonNumeric (files : List String) (raw : String)
    (h : pythonInt? (upperStr (pyStrip raw)) = none) :
    selectFiles files raw = files := by
  simp only [selectFiles]
  split
  · rfl
  · rw [h]

lemma selectFiles_outOfRange (files : List String) (raw : String) (n : Int)
    (h : pythonInt? (upperStr (pyStrip raw)) = some n)
    (hn : n < 1 ∨ (files.length : Int) < n) :
    selectFiles files raw = files := by
  have hno : ¬(upperStr (pyStrip raw) = "ALL" ∨ upperStr (pyStrip raw) = "") := by
    rintro (he | he) <;> rw [he] at h
    · rw [show pythonInt? "ALL" = none from by decide] at h
      exact Option.noConfusion h
    · rw [show pythonInt? "" = none from by decide] at h
      exact Option.noConfusion h
  simp only [selectFiles]
  rw [if_neg hno, h]
  rcases hn with hn | hn
  · simp only [if_neg (show ¬(1 : Int) ≤ n by omega)]
  · have h1 : (1 : Int) ≤ n := by omega
    have hnone : files.get? (n.toNat - 1) = none := List.get?_eq_none.mpr (by omega)
    simp only [if_pos h1, hnone]

/-- Claim C7: on a non-empty file list no selection input fails: `ALL` or
empty (after strip/upper) selects the whole list, a valid 1-based index
selects exactly that document, a non-numeric input selects the whole list,
an index outside `1..N` selects the whole list, and every input yields
either the whole list or a singleton of a listed document — never an empty
selection, never an abort. -/
theorem selection_never_fails (files : List String) (raw : String) (hne : files ≠ []) :
    selectFiles files raw ≠ [] ∧
    (upperStr (pyStrip raw) = "ALL" ∨ upperStr (pyStrip raw) = "" →
        selectFiles files raw = files) ∧
    (∀ n : Int, pythonInt? (upperStr (pyStrip raw)) = some n → 1 ≤ n →
        n ≤ (files.length : Int) →
        ∃ f, files.get? (n.toNat - 1) = some f ∧ selectFiles files raw = [f]) ∧
    (pythonInt? (upperStr (pyStrip raw)) = none → selectFiles files raw = files) ∧
    (∀ n : Int, pythonInt? (upperStr (pyStrip raw)) = some n →
        n < 1 ∨ (files.length : Int) < n → selectFiles files raw = files) ∧
    (selectFiles files raw = files ∨ ∃ f, f ∈ files ∧ selectFiles files raw = [f]) := by
  refine ⟨?_, fun h => selectFiles_all files raw h,
    fun n h h1 h2 => selectFiles_index files raw n h h1 h2,
    fun h => selectFiles_nonNumeric files raw h,
    fun n h hn => selectFiles_outOfRange files raw n h hn,
    selectFiles_shape files raw⟩
  rcases selectFiles_shape files raw with h | ⟨f, _, h⟩ <;> rw [h]
  · exact hne
  · exact List.cons_ne_nil f []

/-- Witness for C7: on a 2-file list the input `" 2 "` selects the second
file, `"ALL"` selects both, and the invalid inputs `"garbage"` (non-numeric)
and `"7"` (out of range) both degrade to the full list. -/
theorem selection_never_fails_witness :
    selectFiles ["a.pdf", "b.pdf"] " 2 " ≠ [] ∧
    selectFiles ["a.pdf", "b.pdf"] "ALL" = ["a.pdf", "b.pdf"] ∧
    selectFiles ["a.pdf", "b.pdf"] "garbage" = ["a.pdf", "b.pdf"] ∧
    selectFiles ["a.pdf", "b.pdf"] "7" = ["a.pdf", "b.pdf"] :=
  ⟨(selection_never_fails ["a.pdf", "b.pdf"] " 2 " (by decide)).1,
   (selection_never_fails ["a.pdf", "b.pdf"] "ALL" (by decide)).2.1 (Or.inl (by decide)),
   (selection_never_fails ["a.pdf", "b.pdf"] "garbage" (by decide)).2.2.2.1 (by decide),
   (selection_never_fails ["a.pdf", "b.pdf"] "7" (by decide)).2.2.2.2.1 7 (by decide)
     (Or.inr (by decide))⟩

/-- Claim C8: each overlay draws at most one decoration per label:
with `DRAW_BOX` set both labels get a rectangle and no circle is drawn
even if `DRAW_CIRCLE` is also set; with only `DRAW_CIRCLE` set both labels
get a circle; with neither set no decoration is drawn. -/
theorem overlay_decoration_exclusive (config : Config) (n1 n2 : Nat) (pw ph : ℚ)
    (sw : String → ℚ) :
    countRects (create_number_overlay n1 n2 config pw ph sw).ops
      = (if config.drawBox then 2 else 0) ∧
    countCircles (create_number_overlay n1 n2 config pw ph sw).ops
      = (if config.drawBox = false ∧ config.drawCircle = true then 2 else 0) := by
  obtain ⟨x1, y1, x2, y2, dg, pad, db, dc⟩ := config
  cases db <;> cases dc <;>
    simp [create_number_overlay, labelOps, countRects, countCircles,
      List.countP_append, List.countP_cons]

/-- Claim C9: in continuous mode a failed document consumes no numbering
range: the counter is carried forward only by successful documents, so the
start value used for the document after a failed one equals the start
value that failed document was given. -/
theorem continuous_failed_doc_start (b next : Nat) (docs : List (List Bool)) (k : Nat)
    (d : List Bool) (hk : docs[k]? = some d) (hf : false ∈ d)
    (hlt : k + 1 < docs.length) :
    (docStarts Mode.continuous b next docs)[k + 1]?
      = (docStarts Mode.continuous b next docs)[k]? :=
  docStarts_continuous_failed b next docs k d hk hf hlt

/-- Witness for C9: in the 3-document batch whose middle document fails,
document 3 is seeded with the same start value as the failed document 2. -/
theorem continuous_failed_doc_start_witness :
    (docStarts Mode.continuous 1 1 [[true], [false], [true]])[2]?
      = (docStarts Mode.continuous 1 1 [[true], [false], [true]])[1]? :=
  continuous_failed_doc_start 1 1 [[true], [false], [true]] 1 [false]
    (by decide) (by decide) (by decide)
